import Mathlib

/-!
Shallow embedding of the pollination-ai chat client core
(`src/services/pollinationApi.ts` and `src/App.tsx`), together with
theorems settling the specification claims about it.

JavaScript strings are modelled as Lean `String` (code points; all the
literals involved are ASCII), numbers as `Nat`, optional fields as
`Option`, and JavaScript truthiness is translated explicitly at each
use site (empty string / 0 / undefined are falsy).
-/

namespace Pollination

/-! ### JavaScript string primitives -/

/-- Whitespace characters recognised by JavaScript `\s` and `trim`
(ASCII whitespace plus NBSP; the exotic Unicode space code points do not
occur in any input the claims touch). -/
def jsIsSpace (c : Char) : Bool :=
  c = ' ' || c = '\t' || c = '\n' || c = '\r' ||
  c = Char.ofNat 11 || c = Char.ofNat 12 || c = Char.ofNat 160

/-- Test whether the pattern list is an initial segment of the second list. -/
def beginsWithCh : List Char → List Char → Bool
  | [], _ => true
  | _ :: _, [] => false
  | p :: ps, s :: ss => (p == s) && beginsWithCh ps ss

/-- Case-insensitive variant of `beginsWithCh` (JavaScript `i` flag). -/
def beginsWithCI : List Char → List Char → Bool
  | [], _ => true
  | _ :: _, [] => false
  | p :: ps, s :: ss => (p.toLower == s.toLower) && beginsWithCI ps ss

/-- Occurrence of `pat` as a contiguous segment of the list
(JavaScript `String.includes`). -/
def occursIn (pat : List Char) : List Char → Bool
  | [] => pat.isEmpty
  | s :: ss => beginsWithCh pat (s :: ss) || occursIn pat ss

/-- Substring containment on strings, i.e. `s.includes(pat)`. -/
def stringIncludes (s pat : String) : Bool := occursIn pat.data s.data

/-- JavaScript `toLowerCase` (character-wise; adequate for the ASCII
keyword sets used by the classifier). -/
def jsToLower (s : String) : String := String.mk (s.data.map Char.toLower)

/-- JavaScript `trim`. -/
def jsTrim (s : String) : String :=
  String.mk (((s.data.dropWhile jsIsSpace).reverse.dropWhile jsIsSpace).reverse)

/-! ### Request classifier (`pollinationApi.ts`, `isImageRequest` /
`isRawImageRequest`) -/

/-- Keyword set of `isImageRequest`. -/
def imageKeywords : List String :=
  ["/imagine", "generate image", "create image", "draw", "paint", "sketch",
   "show me", "picture of", "image of", "photo of", "illustration of"]

/-- Detect an (enhanced) image-generation request. -/
def isImageRequest (message : String) : Bool :=
  let lowerMessage := jsToLower message
  imageKeywords.any (fun keyword => stringIncludes lowerMessage keyword)

/-- Keyword set of `isRawImageRequest`. -/
def rawKeywords : List String :=
  ["/raw", "--raw", "exact prompt", "no enhancement", "raw prompt"]

/-- Detect a raw (no-enhancement) image request. -/
def isRawImageRequest (message : String) : Bool :=
  let lowerMessage := jsToLower message
  rawKeywords.any (fun keyword => stringIncludes lowerMessage keyword)

/-! ### Prompt cleaning (`cleanImagePrompt` / `cleanRawImagePrompt`)

Each JavaScript `replace` call uses a non-global regex, so only the first
match is removed.  The patterns are specific enough to admit a direct
greedy translation: every literal that follows a `\s*` in them starts
with a non-space character, so the greedy whitespace run never needs to
backtrack. -/

/-- Replace `/^tok\s*/i` by the empty string: drop a leading
case-insensitive token and the whitespace run after it. -/
def dropAnchoredToken (tok : String) (s : String) : String :=
  if beginsWithCI tok.data s.data then
    String.mk ((s.data.drop tok.length).dropWhile jsIsSpace)
  else s

/-- Replace the first case-insensitive occurrence of `tok` followed by a
whitespace run (pattern `tok\s*` without anchor) by the empty string. -/
def removeTokenWsAux (tok : List Char) : List Char → List Char
  | [] => []
  | c :: cs =>
    if beginsWithCI tok (c :: cs) then ((c :: cs).drop tok.length).dropWhile jsIsSpace
    else c :: removeTokenWsAux tok cs

/-- Alternative phrases of the `cleanRawImagePrompt` phrase pattern. -/
def rawPhrases : List String := ["exact prompt", "no enhancement", "raw prompt"]

/-- Length of the first alternative of `alts` matching case-insensitively
at the head of `s` (JavaScript alternation tries alternatives in order). -/
def matchAltCI (alts : List String) (s : List Char) : Option Nat :=
  (alts.find? (fun a => beginsWithCI a.data s)).map String.length

/-- Index and length of the leftmost phrase occurrence. -/
def firstPhraseIdxAux (i : Nat) : List Char → Option (Nat × Nat)
  | [] => none
  | c :: cs =>
    match matchAltCI rawPhrases (c :: cs) with
    | some len => some (i, len)
    | none => firstPhraseIdxAux (i + 1) cs

/-- Replace `/\s*(exact prompt|no enhancement|raw prompt)\s*/i` by the
empty string: the leftmost match consumes the maximal whitespace run
before the leftmost phrase occurrence, the phrase, and the whitespace run
after it (no alternative can start with a whitespace character, so the
leftmost match is anchored at the phrase this way). -/
def removePhraseWs (s : List Char) : List Char :=
  match firstPhraseIdxAux 0 s with
  | none => s
  | some (j, len) =>
    let wsBefore := (((s.take j).reverse).takeWhile jsIsSpace).length
    s.take (j - wsBefore) ++ (s.drop (j + len)).dropWhile jsIsSpace

/-- Verb alternatives of the natural-language image-request pattern. -/
def verbList : List String := ["generate", "create", "draw", "paint", "sketch", "show me"]

/-- Noun alternatives of the natural-language image-request pattern. -/
def nounList : List String := ["image", "picture", "photo", "illustration"]

/-- Match the tail of the pattern, `(image|picture|photo|illustration)\s*(of\s*)?`,
returning the remainder after it when it matches. -/
def matchNounTail (s : List Char) : Option (List Char) :=
  match matchAltCI nounList s with
  | none => none
  | some nlen =>
    let s3 := (s.drop nlen).dropWhile jsIsSpace
    some (if beginsWithCI ['o', 'f'] s3 then (s3.drop 2).dropWhile jsIsSpace else s3)

/-- Replace `/^(generate|create|draw|paint|sketch|show me)\s*(an?\s*)?(image|picture|photo|illustration)\s*(of\s*)?/i`
by the empty string.  The optional article group `(an?\s*)?` is tried
greedily, with the JavaScript backtracking order: consume a leading
case-insensitive a-n pair, else a single article letter, else nothing. -/
def stripImagePhrase (s0 : List Char) : List Char :=
  match matchAltCI verbList s0 with
  | none => s0
  | some vlen =>
    let s1 := (s0.drop vlen).dropWhile jsIsSpace
    let afterArt :=
      if beginsWithCI ['a', 'n'] s1 then
        match matchNounTail ((s1.drop 2).dropWhile jsIsSpace) with
        | some r => some r
        | none =>
          match matchNounTail ((s1.drop 1).dropWhile jsIsSpace) with
          | some r => some r
          | none => matchNounTail s1
      else if beginsWithCI ['a'] s1 then
        match matchNounTail ((s1.drop 1).dropWhile jsIsSpace) with
        | some r => some r
        | none => matchNounTail s1
      else matchNounTail s1
    match afterArt with
    | some r => r
    | none => s0

/-- Strip `/imagine` and a leading natural-language image-request phrase,
then trim (`cleanImagePrompt`). -/
def cleanImagePrompt (message : String) : String :=
  jsTrim (String.mk (stripImagePhrase (dropAnchoredToken "/imagine" message).data))

/-- Strip all raw-request control tokens and the natural-language
image-request phrase, then trim (`cleanRawImagePrompt`). -/
def cleanRawImagePrompt (message : String) : String :=
  let s1 := dropAnchoredToken "/imagine" message
  let s2 := dropAnchoredToken "/raw" s1
  let s3 := String.mk (removeTokenWsAux ("--raw".data) s2.data)
  let s4 := String.mk (removePhraseWs s3.data)
  jsTrim (String.mk (stripImagePhrase s4.data))

/-! ### Image prompt enhancement and model inference -/

/-- Quality-descriptor tags appended by the enhancer. -/
def enhancements : List String :=
  ["highly detailed", "beautiful", "professional quality", "vibrant colors", "sharp focus"]

/-- Enhance a short image prompt (`enhanceImagePrompt`): prompts of fewer
than 20 characters get the comma-joined tag list appended. -/
def enhanceImagePrompt (prompt : String) : String :=
  if prompt.length < 20 then
    prompt ++ ", " ++ String.intercalate ", " enhancements
  else prompt

/-- Image backend models, after the TypeScript union type of
`ImageGenerationOptions.model`. -/
inductive ImageModel where
  | flux
  | fluxRealism
  | anyDark
  | fluxAnime
  | flux3d
  | turbo
deriving DecidableEq

/-- String identifier of each image model. -/
def imageModelName : ImageModel → String
  | .flux => "flux"
  | .fluxRealism => "flux-realism"
  | .anyDark => "any-dark"
  | .fluxAnime => "flux-anime"
  | .flux3d => "flux-3d"
  | .turbo => "turbo"

/-- Keyword cascade of `inferImageModel` (the branch taken when no
preferred model is supplied). -/
def inferImageModelScan (prompt : String) : String :=
  let lowerPrompt := jsToLower prompt
  if stringIncludes lowerPrompt "anime" || stringIncludes lowerPrompt "manga" ||
     stringIncludes lowerPrompt "cartoon" then "flux-anime"
  else if stringIncludes lowerPrompt "3d" || stringIncludes lowerPrompt "render" ||
     stringIncludes lowerPrompt "sculpture" then "flux-3d"
  else if stringIncludes lowerPrompt "dark" || stringIncludes lowerPrompt "gothic" ||
     stringIncludes lowerPrompt "horror" then "any-dark"
  else if stringIncludes lowerPrompt "realistic" || stringIncludes lowerPrompt "photo" ||
     stringIncludes lowerPrompt "portrait" then "flux-realism"
  else if stringIncludes lowerPrompt "quick" || stringIncludes lowerPrompt "fast" ||
     stringIncludes lowerPrompt "simple" then "turbo"
  else "flux"

/-- Select the image model (`inferImageModel`): a truthy (non-empty)
preferred model is returned as is, otherwise the keyword scan runs. -/
def inferImageModel (prompt : String) (preferredModel : Option String) : String :=
  match preferredModel with
  | some m => if m = "" then inferImageModelScan prompt else m
  | none => inferImageModelScan prompt

/-! ### Image URL construction (`generateImage`) -/

/-- Options record of `generateImage`, after `ImageGenerationOptions`. -/
structure ImageGenerationOptions where
  model : Option ImageModel
  seed : Option Nat
  width : Option Nat
  height : Option Nat
  nologo : Option Bool
  enhancePrompt : Option Bool
deriving DecidableEq

/-- JavaScript `x || d` on an optional number: the default is used when
the option is absent or 0 (both falsy). -/
def jsOrNat (o : Option Nat) (d : Nat) : Nat :=
  match o with
  | some n => if n = 0 then d else n
  | none => d

/-- Uppercase hexadecimal digit. -/
def hexDigitUpper (n : Nat) : Char :=
  if n < 10 then Char.ofNat (48 + n) else Char.ofNat (55 + n)

/-- Bytes left unescaped by `encodeURIComponent`: ASCII alphanumerics
and the marks of RFC 2396. -/
def isUriUnescaped (b : Nat) : Bool :=
  (65 ≤ b && b ≤ 90) || (97 ≤ b && b ≤ 122) || (48 ≤ b && b ≤ 57) ||
  b = 45 || b = 95 || b = 46 || b = 33 || b = 126 || b = 42 || b = 39 || b = 40 || b = 41

/-- JavaScript `encodeURIComponent` over the UTF-8 bytes of the string. -/
def encodeURIComponent (s : String) : String :=
  String.mk ((s.toUTF8.toList.map UInt8.toNat).flatMap (fun b =>
    if isUriUnescaped b then [Char.ofNat b]
    else ['%', hexDigitUpper (b / 16), hexDigitUpper (b % 16)]))

/-- Bytes left unescaped by `URLSearchParams` serialization
(application/x-www-form-urlencoded). -/
def isFormUnescaped (b : Nat) : Bool :=
  (65 ≤ b && b ≤ 90) || (97 ≤ b && b ≤ 122) || (48 ≤ b && b ≤ 57) ||
  b = 42 || b = 45 || b = 46 || b = 95

/-- Value encoding of `URLSearchParams.toString`: space becomes a plus
sign, unreserved bytes pass through, the rest is percent-encoded. -/
def formEncode (s : String) : String :=
  String.mk ((s.toUTF8.toList.map UInt8.toNat).flatMap (fun b =>
    if b = 32 then ['+']
    else if isFormUnescaped b then [Char.ofNat b]
    else ['%', hexDigitUpper (b / 16), hexDigitUpper (b % 16)]))

/-- Serialization of a parameter list (`URLSearchParams.toString`). -/
def serializeParams (ps : List (String × String)) : String :=
  String.intercalate "&" (ps.map (fun p => formEncode p.1 ++ "=" ++ formEncode p.2))

/-- Base URL of the image service. -/
def baseImageUrl : String := "https://image.pollinations.ai"

/-- Effective prompt of `generateImage`: enhancement applies exactly when
`options.enhancePrompt !== false`. -/
def generateImageFinalPrompt (prompt : String) (options : ImageGenerationOptions) : String :=
  if options.enhancePrompt ≠ some false then enhanceImagePrompt prompt else prompt

/-- Backend model chosen by `generateImage` (the scan runs on the
effective, post-enhancement prompt). -/
def generateImageModel (prompt : String) (options : ImageGenerationOptions) : String :=
  inferImageModel (generateImageFinalPrompt prompt options) (options.model.map imageModelName)

/-- Query parameters appended by `generateImage`, in order: width,
height, model, the unconditional no-logo flag, and the seed only when
`options.seed` is truthy (present and non-zero). -/
def generateImageParams (prompt : String) (options : ImageGenerationOptions) :
    List (String × String) :=
  [("width", toString (jsOrNat options.width 1024)),
   ("height", toString (jsOrNat options.height 1024)),
   ("model", generateImageModel prompt options),
   ("nologo", "true")] ++
  (match options.seed with
   | some n => if n = 0 then [] else [("seed", toString n)]
   | none => [])

/-- Image URL returned by `generateImage`. -/
def generateImage (prompt : String) (options : ImageGenerationOptions) : String :=
  baseImageUrl ++ "/prompt/" ++ encodeURIComponent (generateImageFinalPrompt prompt options)
    ++ "?" ++ serializeParams (generateImageParams prompt options)

/-! ### Models listing (`getTextModels`)

The fetch outcome and the parsed JSON body are inputs of the model; the
body is a JavaScript value.  Property access `data[0].name` throws a
TypeError on `null` (which has `typeof null === 'object'`), so field
access lives in `Except`. -/

/-- JavaScript values as far as the models-listing code inspects them. -/
inductive Js where
  | null
  | undefined
  | bool (b : Bool)
  | num (n : Int)
  | str (s : String)
  | arr (xs : List Js)
  | obj (fields : List (String × Js))

/-- Test for `typeof x === 'object'` (true for null, arrays and objects). -/
def jsTypeofObject : Js → Bool
  | .null => true
  | .arr _ => true
  | .obj _ => true
  | _ => false

/-- JavaScript truthiness of a value. -/
def jsTruthy : Js → Bool
  | .null => false
  | .undefined => false
  | .bool b => b
  | .num n => n != 0
  | .str s => s != ""
  | .arr _ => true
  | .obj _ => true

/-- Property read `x.f`: throws on null/undefined, yields the field of an
object (or undefined), and undefined on other values. -/
def jsGetField (x : Js) (f : String) : Except Unit Js :=
  match x with
  | .null => .error ()
  | .undefined => .error ()
  | .obj fs => .ok (((fs.find? (fun p => p.1 == f)).map Prod.snd).getD .undefined)
  | _ => .ok .undefined

/-- Outcome of the models-listing fetch: transport failure, a response
whose body is not valid JSON, or a response with a parsed body. -/
inductive FetchOutcome where
  | networkError
  | responseBadJson (ok : Bool)
  | response (ok : Bool) (body : Js)

/-- Fallback list of text models. -/
def defaultTextModels : List String := ["openai", "claude", "llama", "mistral", "searchgpt"]

/-- Body of the `try` block of `getTextModels`. -/
def getTextModelsCore (outcome : FetchOutcome) : Except Unit (List Js) := do
  match outcome with
  | .networkError => throw ()
  | .responseBadJson _ => throw ()
  | .response ok data =>
    if !ok then throw ()
    match data with
    | .arr (x :: xs) =>
      if jsTypeofObject x then
        let nameVal ← jsGetField x "name"
        if jsTruthy nameVal then
          let names ← (x :: xs).mapM (fun m => jsGetField m "name")
          return names
      return x :: xs
    | .arr [] => return ([] : List Js)
    | _ => return (defaultTextModels.map Js.str)

/-- Result of `getTextModels`: the `catch` clause turns any thrown error
into the fallback list. -/
def getTextModels (outcome : FetchOutcome) : List Js :=
  match getTextModelsCore outcome with
  | .ok l => l
  | .error _ => defaultTextModels.map Js.str

/-! ### Application data model (`App.tsx`) -/

/-- Chat record of the sidebar list. -/
structure Chat where
  id : String
  title : String
  lastMessage : String
  timestamp : String
  isActive : Bool
deriving DecidableEq

/-- File attached to a user message. -/
structure AttachedFile where
  name : String
  size : Nat
  type : String
  url : Option String
  preview : Option String
deriving DecidableEq

/-- Message of the per-chat log. -/
structure MessageType where
  id : String
  content : String
  isUser : Bool
  timestamp : String
  imageUrl : Option String
  audioUrl : Option String
  attachedFiles : List AttachedFile
deriving DecidableEq

/-- Part of a multimodal wire message. -/
inductive ContentPart where
  | text (t : String)
  | imageUrl (url : String)
deriving DecidableEq

/-- Wire-message content: a plain string or a part sequence. -/
inductive ConvContent where
  | str (s : String)
  | parts (ps : List ContentPart)
deriving DecidableEq

/-- Wire-shape conversation message. -/
structure ConversationMessage where
  role : String
  content : ConvContent
deriving DecidableEq

/-- Truthiness of an optional string field (absent and empty are falsy). -/
def jsOptStrTruthy (o : Option String) : Bool :=
  match o with
  | some s => s != ""
  | none => false

/-- JavaScript `String.startsWith` (case sensitive). -/
def strBeginsWith (pat s : String) : Bool := beginsWithCh pat.data s.data

/-! ### Conversation history builder (`buildConversationHistory`) -/

/-- System instruction text, parameterized by the current model name. -/
def systemMessageText (currentModel : String) : String :=
  "You are a helpful AI assistant powered by Pollination AI using the " ++ currentModel ++
  " model. You have access to the full conversation history and can reference previous messages to provide contextual responses. Provide clear, informative, and engaging responses. You can help with various tasks including answering questions, creative writing, problem-solving, and more. Be conversational and helpful.\n\nKey capabilities:\n- Text generation and conversation\n- Image generation (when users use /imagine or /raw commands)\n- Image analysis and discussion (when users upload images)\n- File analysis and discussion\n- Contextual responses based on conversation history\n\nRemember to:\n- Reference previous parts of the conversation when relevant\n- Maintain context and continuity\n- Be helpful and engaging\n- Acknowledge when users refer to earlier messages or topics\n- When users attach files, acknowledge them and provide relevant analysis or discussion about the files\n- For images, describe what you see and provide insights or answer questions about them"

/-- Kilobyte size as printed by `(size / 1024).toFixed(1)`, modelled in
exact arithmetic (round to nearest tenth, ties away from zero). -/
def formatKBtenths (size : Nat) : String :=
  let tenths := (size * 10 + 512) / 1024
  toString (tenths / 10) ++ "." ++ toString (tenths % 10)

/-- Description line of one non-image attachment. -/
def fileDescription (f : AttachedFile) : String :=
  "- " ++ f.name ++ " (" ++ f.type ++ ", " ++ formatKBtenths f.size ++ "KB)"

/-- Multimodal content array built for a user message with attachments:
optional text part, one image part per image attachment with a truthy
URL, then a summary part when non-image attachments exist.  The builder
uses this same construction for a history message and for the new turn. -/
def userContentParts (content : String) (files : List AttachedFile) : List ContentPart :=
  (if content != "" then [ContentPart.text content] else []) ++
  (files.filterMap (fun f =>
    if strBeginsWith "image/" f.type then
      match f.url with
      | some u => if u != "" then some (ContentPart.imageUrl u) else none
      | none => none
    else none)) ++
  (let nonImageFiles := files.filter (fun f => !(strBeginsWith "image/" f.type))
   if nonImageFiles.length > 0 then
     [ContentPart.text ("[User also attached " ++ toString nonImageFiles.length ++
       " non-image file(s):\n" ++
       String.intercalate "\n" (nonImageFiles.map fileDescription) ++ "]")]
   else [])

/-- Wire entry for a user turn (plain string without attachments,
part sequence with). -/
def userConvMessage (content : String) (files : List AttachedFile) : ConversationMessage :=
  if files.length > 0 then
    { role := "user", content := ConvContent.parts (userContentParts content files) }
  else
    { role := "user", content := ConvContent.str content }

/-- Wire entries contributed by one log message inside the history loop:
one entry per user message; for an assistant message, its text when it
has truthy content and no truthy image URL, an image placeholder when it
has a truthy image URL, and nothing otherwise. -/
def msgEntries (msg : MessageType) : List ConversationMessage :=
  if msg.isUser then
    [userConvMessage msg.content msg.attachedFiles]
  else if msg.content != "" && !(jsOptStrTruthy msg.imageUrl) then
    [{ role := "assistant", content := ConvContent.str msg.content }]
  else if jsOptStrTruthy msg.imageUrl then
    [{ role := "assistant", content := ConvContent.str "[Generated an image based on user request]" }]
  else []

/-- Assemble the outbound conversation: the system entry, the entries of
the last 10 log messages (`slice(-10)`) in order, and the new user turn. -/
def buildConversationHistory (currentMessages : List MessageType) (newUserMessage : String)
    (attachedFiles : List AttachedFile) (currentModel : String) : List ConversationMessage :=
  ({ role := "system", content := ConvContent.str (systemMessageText currentModel) } ::
    (currentMessages.drop (currentMessages.length - 10)).flatMap msgEntries) ++
  [userConvMessage newUserMessage attachedFiles]

/-! ### Chat-list state machine (`handleNewChat` / `handleSelectChat` /
`handleDeleteChat`) -/

/-- Fresh chat record created by `handleNewChat`. -/
def newChatRecord (newChatId : String) : Chat :=
  { id := newChatId, title := "New Chat", lastMessage := "Start a conversation...",
    timestamp := "Just now", isActive := true }

/-- Chat list after `handleNewChat`: all existing chats deactivated, the
fresh active chat appended. -/
def handleNewChat (chats : List Chat) (newChatId : String) : List Chat :=
  (chats.map (fun chat => { chat with isActive := false })) ++ [newChatRecord newChatId]

/-- Chat list after `handleSelectChat`: a chat is active exactly when its
id is the selected one. -/
def handleSelectChat (chats : List Chat) (chatId : String) : List Chat :=
  chats.map (fun chat => { chat with isActive := chat.id == chatId })

/-- Chat list after `handleDeleteChat`: the chat is filtered out, and
when the deleted chat was the active one, the first remaining chat (if
any) is marked active. -/
def handleDeleteChatList (chats : List Chat) (activeChat chatId : String) : List Chat :=
  let updatedChats := chats.filter (fun chat => chat.id != chatId)
  if activeChat = chatId then
    match updatedChats with
    | [] => []
    | c :: rest => { c with isActive := true } :: rest
  else updatedChats

/-- New value of the `activeChat` state after `handleDeleteChat` (the
empty string encodes no active chat). -/
def handleDeleteChatActive (chats : List Chat) (activeChat chatId : String) : String :=
  let updatedChats := chats.filter (fun chat => chat.id != chatId)
  if activeChat = chatId then
    match updatedChats with
    | [] => ""
    | c :: _ => c.id
  else activeChat

/-! ### Persistence (`localStorage` effects)

The store holds the two namespaces of §6 of the spec with their parsed
contents: the per-user chat-list blob and the per-user per-chat message
blobs. -/

/-- Persistent storage state. -/
structure Store where
  chatLists : String → Option (List Chat)
  messageLogs : String → String → Option (List MessageType)

/-- Save effect hook for the chat list: the blob is written only when the
in-memory chat list is non-empty (`if (user && chats.length > 0)`). -/
def saveChatsEffect (userId : String) (chats : List Chat) (st : Store) : Store :=
  if chats.length > 0 then
    { st with chatLists := fun u => if u = userId then some chats else st.chatLists u }
  else st

/-- The `removeItem` call of `handleDeleteChat` on the per-chat message blob. -/
def removeMessagesItem (userId chatId : String) (st : Store) : Store :=
  { st with messageLogs := fun u c =>
      if u = userId ∧ c = chatId then none else st.messageLogs u c }

/-- Combined storage effect of `handleDeleteChat`: the deleted chat's
message blob is removed, then the chat-list save hook runs on the updated
in-memory list. -/
def handleDeleteChatStore (userId : String) (chats : List Chat) (activeChat chatId : String)
    (st : Store) : Store :=
  saveChatsEffect userId (handleDeleteChatList chats activeChat chatId)
    (removeMessagesItem userId chatId st)

/-- Chat list loaded on the next session start (the user-change effect
reads the chat-list blob, defaulting to the empty state). -/
def loadChats (st : Store) (userId : String) : List Chat :=
  (st.chatLists userId).getD []

/-! ### Send-message turn (`handleSendMessage`)

The two upstream calls are abstracted by an oracle giving the resolution
of each issued promise; the turn dispatch, the arguments of every call
and the assistant messages appended to the log are computed exactly as in
the source. -/

/-- Oracle resolving the upstream calls of one turn. -/
structure TurnApi where
  imageCall : String → ImageGenerationOptions → Except Unit String
  textCall : String → List ConversationMessage → Except Unit String

/-- Observable result of one turn: the calls issued (prompt and options
or history), the assistant messages appended after the user message, and
whether the typing indicator was set. -/
structure TurnResult where
  imageCalls : List (String × ImageGenerationOptions)
  textCalls : List (String × List ConversationMessage)
  appended : List MessageType
  typingSet : Bool

/-- Options passed by the raw-image branch. -/
def rawImageOptions : ImageGenerationOptions :=
  { model := none, seed := none, width := some 1024, height := some 1024,
    nologo := some true, enhancePrompt := some false }

/-- Options passed by the enhanced-image branch. -/
def enhancedImageOptions : ImageGenerationOptions :=
  { model := none, seed := none, width := some 1024, height := some 1024,
    nologo := some true, enhancePrompt := some true }

/-- Markdown template of the raw-image assistant message. -/
def rawMarkdownContent (imagePrompt imageUrl : String) : String :=
  "![" ++ imagePrompt ++ "](" ++ imageUrl ++ ")\n\n**Raw Image Generated**  \nPrompt: \"" ++
  imagePrompt ++ "\"  \nSize: 1024x1024px  \nEnhancement: Disabled"

/-- Instruction prompt of the enhanced-image text call. -/
def enhancedTextPrompt (imagePrompt : String) : String :=
  "The user wants to generate an image with this prompt: \"" ++ imagePrompt ++
  "\". The prompt will be enhanced for better results. Provide a brief, encouraging response about the image generation and describe what they might expect to see. Keep it under 100 words. Consider the conversation context when crafting your response."

/-- Content of the assistant error message appended by the catch clause. -/
def errorMessageContent : String :=
  "Sorry, I encountered an error while processing your request. Please try again. If you were trying to generate an image, make sure your prompt is descriptive and try again."

/-- Assistant message without image or attachments. -/
def assistantTextMessage (assistantId content : String) : MessageType :=
  { id := assistantId, content := content, isUser := false, timestamp := "Just now",
    imageUrl := none, audioUrl := none, attachedFiles := [] }

/-- User message record appended at the start of the turn. -/
def turnUserMessage (msgId content : String) (processedFiles : List AttachedFile) : MessageType :=
  { id := msgId, content := content, isUser := true, timestamp := "Just now",
    imageUrl := none, audioUrl := none, attachedFiles := processedFiles }

/-- Turn dispatch of `handleSendMessage` (after an active chat exists and
the attachments were processed): the raw check runs first; otherwise the
typing indicator is set and the enhanced-image or plain-text branch runs;
any call failure yields the single assistant error message. -/
def handleSendTurn (content : String) (processedFiles : List AttachedFile)
    (messages : List MessageType) (currentModel : String) (api : TurnApi)
    (msgId assistantId : String) : TurnResult :=
  let updatedMessages := messages ++ [turnUserMessage msgId content processedFiles]
  if isRawImageRequest content then
    let imagePrompt := cleanRawImagePrompt content
    match api.imageCall imagePrompt rawImageOptions with
    | .ok imageUrl =>
      { imageCalls := [(imagePrompt, rawImageOptions)], textCalls := [],
        appended := [assistantTextMessage assistantId (rawMarkdownContent imagePrompt imageUrl)],
        typingSet := false }
    | .error _ =>
      { imageCalls := [(imagePrompt, rawImageOptions)], textCalls := [],
        appended := [assistantTextMessage assistantId errorMessageContent],
        typingSet := false }
  else if isImageRequest content then
    let imagePrompt := cleanImagePrompt content
    let conversationHistory := buildConversationHistory updatedMessages content processedFiles currentModel
    match api.textCall (enhancedTextPrompt imagePrompt) conversationHistory,
          api.imageCall imagePrompt enhancedImageOptions with
    | .ok textResponse, .ok imageUrl =>
      { imageCalls := [(imagePrompt, enhancedImageOptions)],
        textCalls := [(enhancedTextPrompt imagePrompt, conversationHistory)],
        appended := [{ id := assistantId, content := textResponse, isUser := false,
                       timestamp := "Just now", imageUrl := some imageUrl, audioUrl := none,
                       attachedFiles := [] }],
        typingSet := true }
    | _, _ =>
      { imageCalls := [(imagePrompt, enhancedImageOptions)],
        textCalls := [(enhancedTextPrompt imagePrompt, conversationHistory)],
        appended := [assistantTextMessage assistantId errorMessageContent],
        typingSet := true }
  else
    let conversationHistory := buildConversationHistory updatedMessages content processedFiles currentModel
    match api.textCall content conversationHistory with
    | .ok aiResponse =>
      { imageCalls := [], textCalls := [(content, conversationHistory)],
        appended := [assistantTextMessage assistantId aiResponse], typingSet := true }
    | .error _ =>
      { imageCalls := [], textCalls := [(content, conversationHistory)],
        appended := [assistantTextMessage assistantId errorMessageContent], typingSet := true }

/-- Per-chat body of the title update mapped over the chat list after a
successful exchange: only the active chat still titled with the default
is renamed, to `content.slice(0, 30)` plus an ellipsis when the content
is longer than 30 characters. -/
def updateChatTitleOne (activeChat content : String) (chat : Chat) : Chat :=
  if chat.id == activeChat && chat.title == "New Chat" then
    { chat with title := String.mk (content.data.take 30) ++
        (if content.length > 30 then "..." else "") }
  else chat

/-- Title update of the whole chat list after a successful exchange. -/
def updateChatTitle (chats : List Chat) (activeChat content : String) : List Chat :=
  chats.map (updateChatTitleOne activeChat content)

/-! ### Claim-side definitions -/

/-- Test whether the lower-cased prompt contains any of the cue words. -/
def hasCue (lowerPrompt : String) (cues : List String) : Bool :=
  cues.any (fun cue => stringIncludes lowerPrompt cue)

/-- Modelled from the claim wording of C4: an explicitly supplied model
always wins; otherwise a case-insensitive keyword scan picks the model
for the first matching cue group, defaulting to the general-purpose
model. -/
def inferImageModelClaim (prompt : String) (m : Option ImageModel) : String :=
  match m with
  | some mm => imageModelName mm
  | none =>
    let lp := jsToLower prompt
    if hasCue lp ["anime", "manga", "cartoon"] then "flux-anime"
    else if hasCue lp ["3d", "render", "sculpture"] then "flux-3d"
    else if hasCue lp ["dark", "gothic", "horror"] then "any-dark"
    else if hasCue lp ["realistic", "photo", "portrait"] then "flux-realism"
    else if hasCue lp ["quick", "fast", "simple"] then "turbo"
    else "flux"

/-! ### Theorems for the claims -/

/-- C3: the image-prompt enhancer appends the fixed comma-joined
quality-descriptor tag list exactly when the prompt is shorter than 20
characters and passes longer prompts through unchanged, and
`generateImage` applies the enhancement exactly when
`options.enhancePrompt` is not `false`. -/
theorem c3_enhancer_behavior (p : String) (opts : ImageGenerationOptions) :
    (p.length < 20 → enhanceImagePrompt p =
      p ++ ", highly detailed, beautiful, professional quality, vibrant colors, sharp focus") ∧
    (20 ≤ p.length → enhanceImagePrompt p = p) ∧
    (opts.enhancePrompt ≠ some false → generateImageFinalPrompt p opts = enhanceImagePrompt p) ∧
    (opts.enhancePrompt = some false → generateImageFinalPrompt p opts = p) := by
  refine ⟨fun h => ?_, fun h => ?_, fun h => ?_, fun h => ?_⟩
  · rw [enhanceImagePrompt, if_pos h, String.append_assoc]
    rfl
  · rw [enhanceImagePrompt, if_neg (by omega)]
  · rw [generateImageFinalPrompt, if_pos h]
  · rw [generateImageFinalPrompt, if_neg (by simp [h])]

/-- Witness for C3 at concrete short and long prompts. -/
theorem c3_enhancer_behavior_witness :
    enhanceImagePrompt "cat" =
      "cat, highly detailed, beautiful, professional quality, vibrant colors, sharp focus" ∧
    enhanceImagePrompt "a very long prompt over twenty chars" =
      "a very long prompt over twenty chars" ∧
    generateImageFinalPrompt "cat" rawImageOptions = "cat" :=
  ⟨(c3_enhancer_behavior "cat" rawImageOptions).1 (by decide),
   (c3_enhancer_behavior "a very long prompt over twenty chars" rawImageOptions).2.1 (by decide),
   (c3_enhancer_behavior "cat" rawImageOptions).2.2.2 rfl⟩

/-- C4: model selection of `generateImage` — an explicitly supplied
model always wins, otherwise the keyword cascade over the effective
(post-enhancement) prompt picks the model, with the general-purpose
default when no cue matches; stated as a refinement of the definition
written from the claim wording. -/
theorem c4_model_selection (p : String) (m : Option ImageModel) (opts : ImageGenerationOptions) :
    inferImageModel p (m.map imageModelName) = inferImageModelClaim p m ∧
    generateImageModel p opts =
      inferImageModel (generateImageFinalPrompt p opts) (opts.model.map imageModelName) := by
  constructor
  · cases m with
    | none =>
      simp [inferImageModel, inferImageModelScan, inferImageModelClaim, hasCue, Bool.or_assoc]
    | some mm =>
      cases mm <;> rfl
  · rfl

/-- C9: the image URL always carries `nologo=true` (the `nologo` option
is never consulted), and the seed parameter is emitted exactly when the
seed option is present and non-zero. -/
theorem c9_nologo_and_seed (p : String) (opts : ImageGenerationOptions) :
    ("nologo", "true") ∈ generateImageParams p opts ∧
    (∀ b : Option Bool, generateImage p { opts with nologo := b } = generateImage p opts) ∧
    ((∃ v, ("seed", v) ∈ generateImageParams p opts) ↔ ∃ n, opts.seed = some n ∧ n ≠ 0) := by
  refine ⟨?_, fun b => ?_, ?_⟩
  · simp [generateImageParams]
  · cases opts
    rfl
  · cases opts with
    | mk model seed width height nologo enhancePrompt =>
      cases seed with
      | none => simp [generateImageParams]
      | some n =>
        by_cases hn : n = 0
        · simp [generateImageParams, hn]
        · simp [generateImageParams, hn]

/-- C5 counterexample: a successful response whose body is the array
`[42]` is neither an array of strings nor an array of objects with a
name field, yet `getTextModels` returns it as is instead of the default
list. -/
theorem c5_array_passthrough_counterexample :
    getTextModels (FetchOutcome.response true (Js.arr [Js.num 42])) ≠
      defaultTextModels.map Js.str := by
  rw [show getTextModels (FetchOutcome.response true (Js.arr [Js.num 42])) = [Js.num 42] from rfl]
  intro h
  have hlen := congrArg List.length h
  simp [defaultTextModels] at hlen

/-- C5 amended: on a network failure, an unparseable body, a non-success
status with any body, or a successful response whose parsed body is not
an array, `getTextModels` returns exactly the fallback list and never
propagates an error; the fallback does not cover every malformed shape,
since some malformed array-shaped bodies are returned as is. -/
theorem c5_fallback_on_failure (b ok : Bool) (anyBody body : Js)
    (hbody : ∀ xs, body ≠ Js.arr xs) :
    getTextModels FetchOutcome.networkError = defaultTextModels.map Js.str ∧
    getTextModels (FetchOutcome.responseBadJson b) = defaultTextModels.map Js.str ∧
    getTextModels (FetchOutcome.response false anyBody) = defaultTextModels.map Js.str ∧
    getTextModels (FetchOutcome.response ok body) = defaultTextModels.map Js.str := by
  refine ⟨rfl, rfl, ?_, ?_⟩
  · cases anyBody <;> rfl
  cases body with
  | arr xs => exact absurd rfl (hbody xs)
  | null => cases ok <;> rfl
  | undefined => cases ok <;> rfl
  | bool c => cases ok <;> rfl
  | num n => cases ok <;> rfl
  | str s => cases ok <;> rfl
  | obj fs => cases ok <;> rfl

/-- Witness for C5 at a concrete malformed non-array body and a concrete
non-success response with an array body. -/
theorem c5_fallback_on_failure_witness :
    getTextModels (FetchOutcome.response true (Js.num 7)) = defaultTextModels.map Js.str ∧
    getTextModels (FetchOutcome.response false (Js.arr [Js.num 7])) =
      defaultTextModels.map Js.str :=
  ⟨(c5_fallback_on_failure true true (Js.arr [Js.num 7]) (Js.num 7)
      (fun xs h => by cases h)).2.2.2,
   (c5_fallback_on_failure true true (Js.arr [Js.num 7]) (Js.num 7)
      (fun xs h => by cases h)).2.2.1⟩

/-- C8: after a successful exchange, the active chat still titled with
the default is renamed to a prefix of the user message of at most 30
characters, with an ellipsis appended exactly when the message is longer
than 30 characters; any chat with a non-default title (or a different
id) is left unchanged. -/
theorem c8_title_rename (activeChat content : String) (chats : List Chat) (chat : Chat) :
    updateChatTitle chats activeChat content = chats.map (updateChatTitleOne activeChat content) ∧
    (chat.title ≠ "New Chat" → updateChatTitleOne activeChat content chat = chat) ∧
    (chat.id ≠ activeChat → updateChatTitleOne activeChat content chat = chat) ∧
    (chat.id = activeChat → chat.title = "New Chat" →
      (updateChatTitleOne activeChat content chat).title =
        String.mk (content.data.take 30) ++ (if content.length > 30 then "..." else "") ∧
      (content.data.take 30).length ≤ 30 ∧
      (content.length ≤ 30 → (updateChatTitleOne activeChat content chat).title = content) ∧
      (content.length > 30 →
        (updateChatTitleOne activeChat content chat).title.data =
          content.data.take 30 ++ ['.', '.', '.'])) := by
  refine ⟨rfl, fun h => ?_, fun h => ?_, fun hid htitle => ?_⟩
  · simp [updateChatTitleOne, h]
  · simp [updateChatTitleOne, h]
  · have hcond : (chat.id == activeChat && chat.title == "New Chat") = true := by
      simp [hid, htitle]
    refine ⟨by simp [updateChatTitleOne, hcond], ?_, fun hle => ?_, fun hgt => ?_⟩
    · rw [List.length_take]
      exact min_le_left _ _
    · have htake : content.data.take 30 = content.data := List.take_of_length_le hle
      have hnot : ¬ (content.length > 30) := by omega
      rw [updateChatTitleOne, if_pos hcond]
      simp only [htake, hnot, if_neg, ite_false]
      have hmk : String.mk content.data = content := by cases content; rfl
      rw [hmk]
      simp
    · rw [updateChatTitleOne, if_pos hcond]
      simp only [hgt, ite_true, if_pos]
      rw [String.data_append]

/-- Witness for C8 at a concrete chat and a 40-character message. -/
theorem c8_title_rename_witness :
    (updateChatTitleOne "c1" "0123456789012345678901234567890123456789"
        { id := "c1", title := "New Chat", lastMessage := "", timestamp := "",
          isActive := true }).title = "012345678901234567890123456789..." ∧
    updateChatTitleOne "c1" "hello"
        { id := "c1", title := "Old title", lastMessage := "", timestamp := "", isActive := true } =
      { id := "c1", title := "Old title", lastMessage := "", timestamp := "", isActive := true } := by
  constructor
  · have h := (c8_title_rename "c1" "0123456789012345678901234567890123456789" []
      { id := "c1", title := "New Chat", lastMessage := "", timestamp := "",
        isActive := true }).2.2.2 rfl rfl
    rw [h.1]
    decide
  · exact (c8_title_rename "c1" "hello" []
      { id := "c1", title := "Old title", lastMessage := "", timestamp := "",
        isActive := true }).2.1 (by decide)

/-- C10: deleting a chat always removes its per-chat message blob, but
the chat-list blob is rewritten only when the remaining in-memory list is
non-empty; hence deleting the last remaining chat leaves the persisted
chat list untouched and the deleted chat reappears on the next session
load. -/
theorem c10_delete_leaves_chat_blob (st : Store) (userId : String) (c : Chat)
    (chats : List Chat) (activeChat chatId : String)
    (hpersist : st.chatLists userId = some [c]) :
    (handleDeleteChatStore userId chats activeChat chatId st).messageLogs userId chatId = none ∧
    (handleDeleteChatList chats activeChat chatId = [] →
      (handleDeleteChatStore userId chats activeChat chatId st).chatLists = st.chatLists) ∧
    (handleDeleteChatList chats activeChat chatId ≠ [] →
      (handleDeleteChatStore userId chats activeChat chatId st).chatLists userId =
        some (handleDeleteChatList chats activeChat chatId)) ∧
    ((handleDeleteChatStore userId [c] activeChat c.id st).chatLists userId = some [c] ∧
      loadChats (handleDeleteChatStore userId [c] activeChat c.id st) userId = [c]) := by
  refine ⟨?_, fun hempty => ?_, fun hne => ?_, ?_⟩
  · rw [handleDeleteChatStore, saveChatsEffect]
    by_cases h : (handleDeleteChatList chats activeChat chatId).length > 0
    · rw [if_pos h]
      simp [removeMessagesItem]
    · rw [if_neg h]
      simp [removeMessagesItem]
  · rw [handleDeleteChatStore, saveChatsEffect, if_neg (by simp [hempty])]
    rfl
  · rw [handleDeleteChatStore, saveChatsEffect,
      if_pos (by simpa [List.length_pos] using hne)]
    simp
  · have hdel : handleDeleteChatList [c] activeChat c.id = [] := by
      rw [handleDeleteChatList]
      simp
    constructor
    · rw [handleDeleteChatStore, saveChatsEffect, if_neg (by simp [hdel])]
      exact hpersist
    · rw [loadChats, handleDeleteChatStore, saveChatsEffect, if_neg (by simp [hdel])]
      simp [removeMessagesItem, hpersist]

/-- Witness for C10 at a concrete store holding one persisted chat. -/
theorem c10_delete_leaves_chat_blob_witness :
    (handleDeleteChatStore "u1"
        [{ id := "c1", title := "New Chat", lastMessage := "", timestamp := "", isActive := true }]
        "c1" "c1"
        { chatLists := fun u => if u = "u1" then
            some [{ id := "c1", title := "New Chat", lastMessage := "", timestamp := "",
                    isActive := true }] else none,
          messageLogs := fun _ _ => some [] }).chatLists "u1" =
      some [{ id := "c1", title := "New Chat", lastMessage := "", timestamp := "",
              isActive := true }] ∧
    (handleDeleteChatStore "u1"
        [{ id := "c1", title := "New Chat", lastMessage := "", timestamp := "", isActive := true }]
        "c1" "c1"
        { chatLists := fun u => if u = "u1" then
            some [{ id := "c1", title := "New Chat", lastMessage := "", timestamp := "",
                    isActive := true }] else none,
          messageLogs := fun _ _ => some [] }).messageLogs "u1" "c1" = none :=
  ⟨((c10_delete_leaves_chat_blob
      { chatLists := fun u => if u = "u1" then
          some [{ id := "c1", title := "New Chat", lastMessage := "", timestamp := "",
                  isActive := true }] else none,
        messageLogs := fun _ _ => some [] } "u1"
      { id := "c1", title := "New Chat", lastMessage := "", timestamp := "", isActive := true }
      [{ id := "c1", title := "New Chat", lastMessage := "", timestamp := "", isActive := true }]
      "c1" "c1" (by simp)).2.2.2).1,
   (c10_delete_leaves_chat_blob
      { chatLists := fun u => if u = "u1" then
          some [{ id := "c1", title := "New Chat", lastMessage := "", timestamp := "",
                  isActive := true }] else none,
        messageLogs := fun _ _ => some [] } "u1"
      { id := "c1", title := "New Chat", lastMessage := "", timestamp := "", isActive := true }
      [{ id := "c1", title := "New Chat", lastMessage := "", timestamp := "", isActive := true }]
      "c1" "c1" (by simp)).1⟩

/-- C1: a user message carrying both a raw trigger and an enhanced
trigger is dispatched to the raw path — the single image call is made
with enhancement disabled, no text-generation call is made, and exactly
one assistant message holding the fixed markdown template is appended. -/
theorem c1_raw_takes_precedence (content : String) (files : List AttachedFile)
    (messages : List MessageType) (currentModel : String) (api : TurnApi)
    (msgId assistantId url : String)
    (hraw : isRawImageRequest content = true)
    (henh : isImageRequest content = true)
    (hok : api.imageCall (cleanRawImagePrompt content) rawImageOptions = Except.ok url) :
    (handleSendTurn content files messages currentModel api msgId assistantId).textCalls = [] ∧
    (handleSendTurn content files messages currentModel api msgId assistantId).imageCalls =
      [(cleanRawImagePrompt content, rawImageOptions)] ∧
    rawImageOptions.enhancePrompt = some false ∧
    (handleSendTurn content files messages currentModel api msgId assistantId).appended =
      [assistantTextMessage assistantId
        (rawMarkdownContent (cleanRawImagePrompt content) url)] := by
  have _ := henh
  rw [handleSendTurn]
  rw [hraw]
  simp only [if_pos, ite_true, hok]
  simp [assistantTextMessage, rawImageOptions]

/-- Witness for C1 on a message containing both the raw flag and the
imagine directive. -/
theorem c1_raw_takes_precedence_witness :
    (handleSendTurn "/imagine /raw cat" [] [] "openai"
        { imageCall := fun _ _ => Except.ok "http://img", textCall := fun _ _ => Except.ok "t" }
        "m1" "a1").textCalls = [] ∧
    (handleSendTurn "/imagine /raw cat" [] [] "openai"
        { imageCall := fun _ _ => Except.ok "http://img", textCall := fun _ _ => Except.ok "t" }
        "m1" "a1").appended =
      [assistantTextMessage "a1" (rawMarkdownContent (cleanRawImagePrompt "/imagine /raw cat")
        "http://img")] :=
  ⟨(c1_raw_takes_precedence "/imagine /raw cat" [] [] "openai"
      { imageCall := fun _ _ => Except.ok "http://img", textCall := fun _ _ => Except.ok "t" }
      "m1" "a1" "http://img" (by decide) (by decide) rfl).1,
   (c1_raw_takes_precedence "/imagine /raw cat" [] [] "openai"
      { imageCall := fun _ _ => Except.ok "http://img", textCall := fun _ _ => Except.ok "t" }
      "m1" "a1" "http://img" (by decide) (by decide) rfl).2.2.2⟩

/-- C6: on an enhanced-image turn the text and image calls are issued as
a pair, and when either of them fails no partial-success message is
appended — the single appended assistant message is the error message. -/
theorem c6_enhanced_turn_all_or_nothing (content : String) (files : List AttachedFile)
    (messages : List MessageType) (currentModel : String) (api : TurnApi)
    (msgId assistantId : String)
    (hraw : isRawImageRequest content = false)
    (henh : isImageRequest content = true)
    (hfail :
      api.textCall (enhancedTextPrompt (cleanImagePrompt content))
        (buildConversationHistory (messages ++ [turnUserMessage msgId content files])
          content files currentModel) = Except.error () ∨
      api.imageCall (cleanImagePrompt content) enhancedImageOptions = Except.error ()) :
    (handleSendTurn content files messages currentModel api msgId assistantId).textCalls.length = 1 ∧
    (handleSendTurn content files messages currentModel api msgId assistantId).imageCalls.length = 1 ∧
    (handleSendTurn content files messages currentModel api msgId assistantId).appended =
      [assistantTextMessage assistantId errorMessageContent] ∧
    (assistantTextMessage assistantId errorMessageContent).isUser = false := by
  rw [handleSendTurn]
  rw [hraw, henh]
  simp only [Bool.false_eq_true, if_false, ite_true, if_pos]
  rcases hfail with h | h
  · rw [h]
    rcases himg : api.imageCall (cleanImagePrompt content) enhancedImageOptions with e | u <;>
      simp [assistantTextMessage]
  · rw [h]
    rcases htxt : api.textCall (enhancedTextPrompt (cleanImagePrompt content))
        (buildConversationHistory (messages ++ [turnUserMessage msgId content files])
          content files currentModel) with e | t <;>
      simp [assistantTextMessage]

/-- Witness for C6: the text call fails while the image call succeeds,
and only the error message is appended. -/
theorem c6_enhanced_turn_all_or_nothing_witness :
    (handleSendTurn "draw a cat" [] [] "openai"
        { imageCall := fun _ _ => Except.ok "http://img",
          textCall := fun _ _ => Except.error () } "m1" "a1").appended =
      [assistantTextMessage "a1" errorMessageContent] :=
  (c6_enhanced_turn_all_or_nothing "draw a cat" [] [] "openai"
    { imageCall := fun _ _ => Except.ok "http://img", textCall := fun _ _ => Except.error () }
    "m1" "a1" (by decide) (by decide) (Or.inl rfl)).2.2.1

/-- Contribution predicate of the history loop: a log message yields one
wire entry exactly when it is a user message, or an assistant message
with truthy content or a truthy image URL. -/
def contributesEntry (msg : MessageType) : Bool :=
  msg.isUser || msg.content != "" || jsOptStrTruthy msg.imageUrl

/-- Each log message contributes one wire entry when `contributesEntry`
holds of it and none otherwise. -/
theorem msgEntries_length (msg : MessageType) :
    (msgEntries msg).length = if contributesEntry msg then 1 else 0 := by
  cases hu : msg.isUser <;> cases hc : msg.content != "" <;>
    cases hi : jsOptStrTruthy msg.imageUrl <;>
      simp [msgEntries, contributesEntry, hu, hc, hi]

/-- Length of the middle section of the built history. -/
theorem flatMap_msgEntries_length (l : List MessageType) :
    (l.flatMap msgEntries).length = l.countP contributesEntry := by
  induction l with
  | nil => rfl
  | cons m t ih =>
    rw [List.flatMap_cons, List.length_append, ih, List.countP_cons, msgEntries_length]
    cases h : contributesEntry m <;> simp [h, Nat.add_comm]

/-- C2 counterexample: on a log of 15 assistant messages with empty
content and no image URL, the history builder returns 2 entries, not the
12 the claim asserts for every 15-message log. -/
theorem c2_exactly_twelve_counterexample :
    (buildConversationHistory
        (List.replicate 15
          { id := "", content := "", isUser := false, timestamp := "",
            imageUrl := none, audioUrl := none, attachedFiles := [] })
        "hi" [] "openai").length = 2 ∧ (2 : Nat) ≠ 12 := by
  exact ⟨rfl, by decide⟩

/-- C2 amended: the built history is the system entry, then the entries
of the 10 most recent log messages in original order, then the new user
entry; its length is 2 plus the number of contributing messages among the
10 most recent, hence at most 12, and on a log of 15 prior messages all
of whose 10 most recent contribute an entry it is exactly 12. -/
theorem c2_history_shape (log : List MessageType) (newMsg : String)
    (files : List AttachedFile) (model : String) :
    buildConversationHistory log newMsg files model =
      ({ role := "system", content := ConvContent.str (systemMessageText model) } ::
        (log.drop (log.length - 10)).flatMap msgEntries) ++ [userConvMessage newMsg files] ∧
    (buildConversationHistory log newMsg files model).length =
      2 + (log.drop (log.length - 10)).countP contributesEntry ∧
    (buildConversationHistory log newMsg files model).length ≤ 12 ∧
    (log.length = 15 → (∀ m ∈ log.drop (log.length - 10), contributesEntry m = true) →
      (buildConversationHistory log newMsg files model).length = 12) := by
  have hlen : (buildConversationHistory log newMsg files model).length =
      2 + (log.drop (log.length - 10)).countP contributesEntry := by
    rw [buildConversationHistory, List.length_append, List.length_cons,
      flatMap_msgEntries_length, List.length_singleton]
    omega
  refine ⟨rfl, hlen, ?_, fun h15 hall => ?_⟩
  · rw [hlen]
    have h1 : (log.drop (log.length - 10)).countP contributesEntry ≤
        (log.drop (log.length - 10)).length :=
      (log.drop (log.length - 10)).countP_le_length contributesEntry
    have h2 : (log.drop (log.length - 10)).length ≤ 10 := by
      rw [List.length_drop]
      omega
    omega
  · rw [hlen, List.countP_eq_length.mpr hall, List.length_drop, h15]

/-- Witness for C2 on a log of 15 user messages, all contributing. -/
theorem c2_history_shape_witness :
    (buildConversationHistory
        (List.replicate 15
          { id := "u", content := "hello", isUser := true, timestamp := "",
            imageUrl := none, audioUrl := none, attachedFiles := [] })
        "hi" [] "openai").length = 12 :=
  (c2_history_shape
      (List.replicate 15
        { id := "u", content := "hello", isUser := true, timestamp := "",
          imageUrl := none, audioUrl := none, attachedFiles := [] })
      "hi" [] "openai").2.2.2 (by decide) (by decide)

/-- Number of active chats in a list. -/
def activeCount (chats : List Chat) : Nat :=
  chats.countP (fun c => c.isActive)

/-- State invariant tying the chat list to the `activeChat` state: chat
ids are pairwise distinct and every active chat carries the active id. -/
def ChatListInv (chats : List Chat) (activeChat : String) : Prop :=
  (chats.map Chat.id).Nodup ∧ ∀ c ∈ chats, c.isActive = true → c.id = activeChat

/-- Under the state invariant at most one chat is active. -/
theorem activeCount_le_one (chats : List Chat) (a : String)
    (hnd : (chats.map Chat.id).Nodup)
    (hact : ∀ c ∈ chats, c.isActive = true → c.id = a) :
    activeCount chats ≤ 1 := by
  induction chats with
  | nil => simp [activeCount]
  | cons c t ih =>
    rw [List.map_cons, List.nodup_cons] at hnd
    obtain ⟨hnotin, hndt⟩ := hnd
    have hactt : ∀ d ∈ t, d.isActive = true → d.id = a :=
      fun d hd => hact d (List.mem_cons_of_mem _ hd)
    rw [activeCount, List.countP_cons]
    cases hc : c.isActive with
    | false =>
      have := ih hndt hactt
      rw [activeCount] at this
      simp [hc]
      omega
    | true =>
      have hcid : c.id = a := hact c (List.mem_cons_self _ _) hc
      have hzero : t.countP (fun d => d.isActive) = 0 := by
        rw [List.countP_eq_zero]
        intro d hd hdact
        have hdid : d.id = c.id := by rw [hactt d hd hdact, hcid]
        exact hnotin (hdid ▸ List.mem_map_of_mem Chat.id hd)
      simp [hc, hzero]

/-- C7: at most one chat is active at a time, and the invariant is
preserved by every chat-list operation — creating a chat deactivates all
existing chats and activates the new one, selecting activates exactly the
chosen chat, and deleting activates at most the first remaining chat. -/
theorem c7_at_most_one_active (chats : List Chat) (activeChat newChatId chatId : String)
    (hinv : ChatListInv chats activeChat)
    (hfresh : newChatId ∉ chats.map Chat.id) :
    activeCount chats ≤ 1 ∧
    (activeCount (handleNewChat chats newChatId) = 1 ∧
      ChatListInv (handleNewChat chats newChatId) newChatId) ∧
    (activeCount (handleSelectChat chats chatId) ≤ 1 ∧
      ChatListInv (handleSelectChat chats chatId) chatId ∧
      ∀ c ∈ handleSelectChat chats chatId, c.isActive = (c.id == chatId)) ∧
    (activeCount (handleDeleteChatList chats activeChat chatId) ≤ 1 ∧
      ChatListInv (handleDeleteChatList chats activeChat chatId)
        (handleDeleteChatActive chats activeChat chatId)) := by
  obtain ⟨hnd, hact⟩ := hinv
  refine ⟨activeCount_le_one chats activeChat hnd hact, ⟨?_, ?_⟩, ?_, ?_⟩
  · rw [handleNewChat, activeCount, List.countP_append]
    have hz : (chats.map (fun chat => { chat with isActive := false })).countP
        (fun c => c.isActive) = 0 := by
      rw [List.countP_eq_zero]
      intro x hx
      obtain ⟨c, _, rfl⟩ := List.mem_map.mp hx
      simp
    rw [hz]
    simp [newChatRecord]
  · have hids : (handleNewChat chats newChatId).map Chat.id =
        chats.map Chat.id ++ [newChatId] := by
      rw [handleNewChat, List.map_append, List.map_map]
      rfl
    constructor
    · rw [hids]
      simp [List.nodup_append, hnd, hfresh]
    · intro x hx
      rcases List.mem_append.mp hx with hx | hx
      · obtain ⟨c, _, rfl⟩ := List.mem_map.mp hx
        intro habs
        simp at habs
      · intro _
        rw [List.mem_singleton.mp hx]
        rfl
  · have hids : (handleSelectChat chats chatId).map Chat.id = chats.map Chat.id := by
      rw [handleSelectChat, List.map_map]
      rfl
    have hsel : ∀ c ∈ handleSelectChat chats chatId, c.isActive = (c.id == chatId) := by
      intro x hx
      obtain ⟨c, _, rfl⟩ := List.mem_map.mp hx
      rfl
    have hinv2 : ChatListInv (handleSelectChat chats chatId) chatId := by
      refine ⟨by rw [hids]; exact hnd, ?_⟩
      intro x hx hxact
      rw [hsel x hx] at hxact
      exact eq_of_beq hxact
    exact ⟨activeCount_le_one _ chatId (by rw [hids]; exact hnd) hinv2.2, hinv2, hsel⟩
  · have hFnd : ((chats.filter (fun chat => chat.id != chatId)).map Chat.id).Nodup :=
      List.Nodup.sublist ((List.filter_sublist chats).map Chat.id) hnd
    have hFmem : ∀ d ∈ chats.filter (fun chat => chat.id != chatId),
        d ∈ chats ∧ d.id ≠ chatId := by
      intro d hd
      have hmf := List.mem_filter.mp hd
      exact ⟨hmf.1, by simpa using hmf.2⟩
    by_cases h : activeChat = chatId
    · cases hF : chats.filter (fun chat => chat.id != chatId) with
      | nil =>
        have hres : handleDeleteChatList chats activeChat chatId = [] := by
          simp [handleDeleteChatList, h, hF]
        rw [hres]
        exact ⟨by simp [activeCount], by simp [ChatListInv], by intro x hx hxact; cases hx⟩
      | cons c rest =>
        have hres : handleDeleteChatList chats activeChat chatId =
            { c with isActive := true } :: rest := by
          simp [handleDeleteChatList, h, hF]
        have hactive : handleDeleteChatActive chats activeChat chatId = c.id := by
          simp [handleDeleteChatActive, h, hF]
        have hrest : ∀ d ∈ rest, d ∈ chats ∧ d.id ≠ chatId := by
          intro d hd
          exact hFmem d (by rw [hF]; exact List.mem_cons_of_mem _ hd)
        have hinv2 : ChatListInv (handleDeleteChatList chats activeChat chatId)
            (handleDeleteChatActive chats activeChat chatId) := by
          rw [hres, hactive]
          constructor
          · have hsame : (({ c with isActive := true } :: rest).map Chat.id) =
                ((c :: rest).map Chat.id) := rfl
            rw [hsame, ← hF]
            exact hFnd
          · intro x hx hxact
            rcases List.mem_cons.mp hx with rfl | hx
            · rfl
            · obtain ⟨hxchats, hxne⟩ := hrest x hx
              exact absurd (h ▸ hact x hxchats hxact) hxne
        exact ⟨activeCount_le_one _ _ hinv2.1 hinv2.2, hinv2⟩
    · have hres : handleDeleteChatList chats activeChat chatId =
          chats.filter (fun chat => chat.id != chatId) := by
        simp [handleDeleteChatList, h]
      have hactive : handleDeleteChatActive chats activeChat chatId = activeChat := by
        simp [handleDeleteChatActive, h]
      have hinv2 : ChatListInv (handleDeleteChatList chats activeChat chatId)
          (handleDeleteChatActive chats activeChat chatId) := by
        rw [hres, hactive]
        exact ⟨hFnd, fun x hx hxact => hact x (hFmem x hx).1 hxact⟩
      exact ⟨activeCount_le_one _ _ hinv2.1 hinv2.2, hinv2⟩


/-- Witness for C7 on a concrete one-chat state. -/
theorem c7_at_most_one_active_witness :
    activeCount (handleNewChat
      [{ id := "c1", title := "New Chat", lastMessage := "", timestamp := "",
         isActive := true }] "c2") = 1 ∧
    activeCount (handleDeleteChatList
      [{ id := "c1", title := "New Chat", lastMessage := "", timestamp := "",
         isActive := true }] "c1" "c1") ≤ 1 :=
  ⟨(c7_at_most_one_active
      [{ id := "c1", title := "New Chat", lastMessage := "", timestamp := "",
         isActive := true }] "c1" "c2" "c1" ⟨by decide, by decide⟩ (by decide)).2.1.1,
   (c7_at_most_one_active
      [{ id := "c1", title := "New Chat", lastMessage := "", timestamp := "",
         isActive := true }] "c1" "c2" "c1" ⟨by decide, by decide⟩ (by decide)).2.2.2.1⟩

end Pollination
